import Mathlib

/-!
A verification development for the `gear` Gearman client library
(`gear/__init__.py`).  Python byte strings are modelled as `List Nat`,
dictionaries as association lists, and the stateful methods as pure
state-passing functions.  Each definition is a direct translation of the
corresponding Python function; theorems below relate them to the
specification.
-/

namespace Gear


/-- Byte strings (Python `bytes`) as lists of natural numbers. -/
abbrev Bytes := List Nat

/-- Error kinds surfaced by the library (the exception classes at the top
of `gear/__init__.py`, plus Python's own `KeyError`/`Exception`). -/
inductive GearErr where
  | connectionError
  | invalidData
  | configurationError
  | noConnectedServers
  | unknownJob
  | interruptedError
  | timeoutError
  | gearmanError
  | keyError
  | exceptionError
  deriving DecidableEq, Repr

/-- Magic code for requests, `b"\x00REQ"`. -/
def REQ : Bytes := [0, 82, 69, 81]

/-- Magic code for responses, `b"\x00RES"`. -/
def RES : Bytes := [0, 82, 69, 83]

namespace constants

/-- Modelled from the spec: the static packet-type table (`gear.constants`)
is out of scope of the source tree; the numeric codes are the standard
Gearman protocol codes named in section 6 of the spec. -/
def CAN_DO : Nat := 1

def CANT_DO : Nat := 2

def RESET_ABILITIES : Nat := 3

def PRE_SLEEP : Nat := 4

def NOOP : Nat := 6

def SUBMIT_JOB : Nat := 7

def JOB_CREATED : Nat := 8

def GRAB_JOB : Nat := 9

def NO_JOB : Nat := 10

def JOB_ASSIGN : Nat := 11

def WORK_STATUS : Nat := 12

def WORK_COMPLETE : Nat := 13

def WORK_FAIL : Nat := 14

def GET_STATUS : Nat := 15

def ECHO_REQ : Nat := 16

def ECHO_RES : Nat := 17

def SUBMIT_JOB_BG : Nat := 18

def ERROR : Nat := 19

def STATUS_RES : Nat := 20

def SUBMIT_JOB_HIGH : Nat := 21

def SET_CLIENT_ID : Nat := 22

def CAN_DO_TIMEOUT : Nat := 23

def WORK_EXCEPTION : Nat := 25

def OPTION_REQ : Nat := 26

def OPTION_RES : Nat := 27

def WORK_DATA : Nat := 28

def WORK_WARNING : Nat := 29

def GRAB_JOB_UNIQ : Nat := 30

def JOB_ASSIGN_UNIQ : Nat := 31

def SUBMIT_JOB_HIGH_BG : Nat := 32

def SUBMIT_JOB_LOW : Nat := 33

def SUBMIT_JOB_LOW_BG : Nat := 34

end constants

/-- Precedence constant `PRECEDENCE_NORMAL = 0`. -/
def PRECEDENCE_NORMAL : Nat := 0

/-- Precedence constant `PRECEDENCE_LOW = 1`. -/
def PRECEDENCE_LOW : Nat := 1

/-- Precedence constant `PRECEDENCE_HIGH = 2`. -/
def PRECEDENCE_HIGH : Nat := 2

/-- Python `data.split(b"\x00")`: split a byte string on NUL bytes.  The
result always has at least one element and has exactly one element per
NUL-separated field (`b"".split(b"\x00") == [b""]`). -/
def pySplit : Bytes → List Bytes
  | [] => [[]]
  | b :: rest =>
    if b = 0 then [] :: pySplit rest
    else
      match pySplit rest with
      | p :: ps => (b :: p) :: ps
      | [] => [[b]]

/-- Translation of `Packet.getArgument(index)` (`last=False`): the `index`-th
NUL-separated field of the packet data, or `none` on `IndexError`. -/
def getArg (data : Bytes) (index : Nat) : Option Bytes :=
  (pySplit data).get? index

/-- Translation of `Packet.getArgument(index, last=True)`:
`b"\x00".join(parts[index:])` — the rest of the payload from field
`index` on, NULs preserved. -/
def getArgLast (data : Bytes) (index : Nat) : Bytes :=
  List.intercalate [0] ((pySplit data).drop index)

/-- First NUL-separated field of the packet data (always exists, since
`pySplit` returns a nonempty list). -/
def getArg0 (data : Bytes) : Bytes :=
  ((pySplit data).headD [])

/-- A Gearman binary packet (class `Packet`): magic code, numeric type and
opaque payload.  The originating connection is carried separately where
needed. -/
structure Packet where
  code : Bytes
  ptype : Nat
  data : Bytes
  deriving DecidableEq, Repr

/-- The validity check done by `Packet.__init__`: the first byte of the
magic code must be `0x00`. -/
def Packet.validCode (p : Packet) : Prop :=
  p.code.take 1 = [0]

/-- Big-endian 4-byte encoding of a 32-bit integer, as produced by
`struct.pack("!i", n)` for non-negative `n`. -/
def be32 (n : Nat) : Bytes :=
  [n / 16777216 % 256, n / 65536 % 256, n / 256 % 256, n % 256]

/-- Big-endian decoding of a 4-byte field, as `struct.unpack("!i", ...)`
for values below `2^31`. -/
def deBe32 : Bytes → Nat
  | [a, b, c, d] => ((a * 256 + b) * 256 + c) * 256 + d
  | _ => 0

/-- Translation of `struct.pack("!4s", code)`: the code truncated or NUL-padded to
exactly 4 bytes. -/
def pack4s (code : Bytes) : Bytes :=
  code.take 4 ++ List.replicate (4 - code.length) 0

/-- Translation of `Packet.toBinary`: `struct.pack("!4sii", code, ptype, len(data))`
followed by the payload. -/
def Packet.toBinary (p : Packet) : Bytes :=
  pack4s p.code ++ be32 p.ptype ++ be32 p.data.length ++ p.data

/-- The binary branch of `Connection.readPacket` on an in-memory buffer:
once 12 bytes are available the header is unpacked, and once
`12 + datalen` bytes are available the packet is emitted and the buffer
advanced.  Returns `none` when the frame in progress is still
incomplete. -/
def readBinaryFrame (buf : Bytes) : Option (Packet × Bytes) :=
  if 12 ≤ buf.length then
    let code := buf.take 4
    let ptype := deBe32 ((buf.drop 4).take 4)
    let datalen := deBe32 ((buf.drop 8).take 4)
    if datalen + 12 ≤ buf.length then
      some (⟨code, ptype, (buf.drop 12).take datalen⟩, buf.drop (12 + datalen))
    else none
  else none

/-- One `Connection.readPacket` call on a buffer of already-received
bytes: the first byte chooses between binary framing (`0x00`) and the
admin path (anything else, yielding no binary packet). -/
def readPacketPure (buf : Bytes) : Option (Packet × Bytes) :=
  match buf with
  | [] => none
  | b :: _ => if b = 0 then readBinaryFrame buf else none

/-- Drive `readPacketPure` until the buffer yields no further packet, as
the poll loop drives `Connection.readPacket` while buffered bytes
remain. -/
def readPackets (buf : Bytes) : List Packet :=
  match h : readPacketPure buf with
  | none => []
  | some (p, rest) => p :: readPackets rest
termination_by buf.length
decreasing_by
  rcases buf with - | ⟨b, bs⟩
  · simp [readPacketPure] at h
  · simp only [readPacketPure] at h
    split at h
    · simp only [readBinaryFrame] at h
      split at h
      · split at h
        · simp only [Option.some.injEq, Prod.mk.injEq] at h
          obtain ⟨-, h2⟩ := h
          subst h2
          simp only [List.length_drop]
          omega
        · exact absurd h (by simp)
      · exact absurd h (by simp)
    · exact absurd h (by simp)

/-- Packets the Python `Packet` constructor and `struct.pack("!4sii", ...)`
accept without change: a 4-byte magic code whose first byte is `0x00`,
a type and a payload length in signed 32-bit range, and byte-valued
contents. -/
def Packet.wf (p : Packet) : Prop :=
  p.code.length = 4 ∧ p.code.take 1 = [0] ∧ p.ptype < 2147483648 ∧
    p.data.length < 2147483648 ∧ (∀ b ∈ p.code, b < 256) ∧ (∀ b ∈ p.data, b < 256)

instance (p : Packet) : Decidable p.wf := by
  unfold Packet.wf
  infer_instance

/-- Concatenation of the wire encodings of a sequence of packets. -/
def encodeAll (ps : List Packet) : Bytes :=
  (ps.map Packet.toBinary).flatten

/-- What `Client.submitJob` composes as the packet payload:
`name‖NUL‖unique‖NUL‖arguments`, with `b""` substituted for a `None`
unique key (lines 1405-1409). -/
def submitJobData (name : Bytes) (unique : Option Bytes) (arguments : Bytes) : Bytes :=
  name ++ [0] ++ unique.getD [] ++ [0] ++ arguments

/-- The packet-type selection and payload composition of
`Client.submitJob` up to the first send (lines 1405-1428): picks the
command from the (background, precedence) matrix, raising
`ConfigurationError` on any other precedence before a packet exists. -/
def submitJobPacket (name : Bytes) (unique : Option Bytes) (arguments : Bytes)
    (background : Bool) (precedence : Nat) : Except GearErr Packet :=
  let data := submitJobData name unique arguments
  if background then
    if precedence = PRECEDENCE_NORMAL then .ok ⟨REQ, constants.SUBMIT_JOB_BG, data⟩
    else if precedence = PRECEDENCE_LOW then .ok ⟨REQ, constants.SUBMIT_JOB_LOW_BG, data⟩
    else if precedence = PRECEDENCE_HIGH then .ok ⟨REQ, constants.SUBMIT_JOB_HIGH_BG, data⟩
    else .error .configurationError
  else
    if precedence = PRECEDENCE_NORMAL then .ok ⟨REQ, constants.SUBMIT_JOB, data⟩
    else if precedence = PRECEDENCE_LOW then .ok ⟨REQ, constants.SUBMIT_JOB_LOW, data⟩
    else if precedence = PRECEDENCE_HIGH then .ok ⟨REQ, constants.SUBMIT_JOB_HIGH, data⟩
    else .error .configurationError

/-- A client-side `Job`: the mutable attributes the response handlers
touch. -/
structure Job where
  handle : Option Bytes
  data : List Bytes
  exception : Option Bytes
  warning : Bool
  complete : Bool
  failure : Bool
  deriving DecidableEq, Repr

/-- A connection's `related_jobs` dict (handle → job) as an association
list with distinct keys. -/
abbrev RelatedJobs := List (Bytes × Job)

/-- Dictionary lookup `related_jobs.get(handle)`. -/
def rjGet (m : RelatedJobs) (k : Bytes) : Option Job :=
  (m.find? (fun e => e.1 == k)).map (fun e => e.2)

/-- Python `del related_jobs[k]`: removes the entry, raising `KeyError`
when the key is absent. -/
def rjDel (m : RelatedJobs) (k : Bytes) : Except GearErr RelatedJobs :=
  if (rjGet m k).isSome then .ok (m.eraseP (fun e => e.1 == k))
  else .error .keyError

/-- Translation of `del related_jobs[job.handle]` where the handle may still be
`None`. -/
def rjDelHandle (m : RelatedJobs) (hk : Option Bytes) : Except GearErr RelatedJobs :=
  match hk with
  | none => .error .keyError
  | some k => rjDel m k

/-- Translation of `Packet.getJob` (lines 687-699): look the packet's first argument up
in the originating connection's `related_jobs`, raising
`UnknownJobError` when absent. -/
def packetGetJob (m : RelatedJobs) (pdata : Bytes) : Except GearErr Job :=
  match rjGet m (getArg0 pdata) with
  | none => .error .unknownJob
  | some job => .ok job

/-- Translation of `Client.handleWorkComplete` (lines 1483-1504): append the payload
tail when nonempty, mark the job complete and not failed, and delete it
from `related_jobs`. -/
def handleWorkComplete (m : RelatedJobs) (pdata : Bytes) :
    Except GearErr (Job × RelatedJobs) := do
  let job ← packetGetJob m pdata
  let d := getArgLast pdata 1
  let job := if d.isEmpty then job else { job with data := job.data ++ [d] }
  let job := { job with complete := true, failure := false }
  let mc ← rjDelHandle m job.handle
  .ok (job, mc)

/-- Translation of `Client.handleWorkFail` (lines 1506-1523): mark the job complete and
failed and delete it from `related_jobs`. -/
def handleWorkFail (m : RelatedJobs) (pdata : Bytes) :
    Except GearErr (Job × RelatedJobs) := do
  let job ← packetGetJob m pdata
  let job := { job with complete := true, failure := true }
  let mf ← rjDelHandle m job.handle
  .ok (job, mf)

/-- Translation of `Client.handleWorkException` (lines 1525-1544): store the exception
payload, mark the job complete and failed and delete it from
`related_jobs`. -/
def handleWorkException (m : RelatedJobs) (pdata : Bytes) :
    Except GearErr (Job × RelatedJobs) := do
  let job ← packetGetJob m pdata
  let job := { job with exception := some (getArgLast pdata 1),
                        complete := true, failure := true }
  let me ← rjDelHandle m job.handle
  .ok (job, me)

/-- Translation of `Client.handleWorkData` (lines 1546-1562): append the payload tail
to the job's data list when nonempty. -/
def handleWorkData (m : RelatedJobs) (pdata : Bytes) :
    Except GearErr (Job × RelatedJobs) := do
  let job ← packetGetJob m pdata
  let d := getArgLast pdata 1
  let job := if d.isEmpty then job else { job with data := job.data ++ [d] }
  .ok (job, m)

/-- Translation of `Client.handleWorkWarning` (lines 1564-1581): append the payload
tail when nonempty and set the warning flag. -/
def handleWorkWarning (m : RelatedJobs) (pdata : Bytes) :
    Except GearErr (Job × RelatedJobs) := do
  let job ← packetGetJob m pdata
  let d := getArgLast pdata 1
  let job := if d.isEmpty then job else { job with data := job.data ++ [d] }
  let job := { job with warning := true }
  .ok (job, m)

/-- The per-connection echo state: the keys of the `echo_conditions`
registry (payload → condition) and the payloads whose condition has been
notified. -/
structure EchoState where
  registry : List Bytes
  woken : List Bytes
  deriving DecidableEq, Repr

/-- The registration phase of `Connection.echo` (lines 370-378): under
`echo_lock`, fail with `InvalidDataError` when a waiter for the same
payload already exists, otherwise insert a fresh condition keyed by the
payload. -/
def echoRegister (st : EchoState) (data : Bytes) : Except GearErr EchoState :=
  if data ∈ st.registry then .error .invalidData
  else .ok { st with registry := data :: st.registry }

/-- Translation of `Connection.handleEchoRes` (lines 394-407): under `echo_lock`, look
up and delete the registry entry for the payload; when one was present,
notify all waiters on its condition and return `true`. -/
def handleEchoRes (st : EchoState) (data : Bytes) : EchoState × Bool :=
  if data ∈ st.registry then
    ({ registry := st.registry.erase data, woken := data :: st.woken }, true)
  else (st, false)

/-- The final check of `Connection.echo` after the wait (lines 386-388):
`if data in self.echo_conditions: return data` else
`raise TimeoutError()`. -/
def echoFinish (st : EchoState) (data : Bytes) : Except GearErr Bytes :=
  if data ∈ st.registry then .ok data else .error .timeoutError

/-- Translation of `Connection.echo` when no ECHO_RES arrives before the timeout: the
registration phase followed directly by the post-wait check, with the
registry unchanged in between.  Returns the call's result together with
the echo state left behind. -/
def echoTimedOutRun (st : EchoState) (data : Bytes) :
    Except GearErr (Bytes × EchoState) := do
  let st1 ← echoRegister st data
  let r ← echoFinish st1 data
  .ok (r, st1)

/-- Translation of `Connection.echo` when an ECHO_RES carrying the payload arrives
before the timeout: registration, then `handleEchoRes`, then the
post-wait check. -/
def echoAnsweredRun (st : EchoState) (data : Bytes) :
    Except GearErr (Except GearErr Bytes × EchoState) := do
  let st1 ← echoRegister st data
  let (st2, _) := handleEchoRes st1 data
  .ok (echoFinish st2 data, st2)

/-- The per-connection state labels used by the worker role. -/
inductive ConnState where
  | INIT
  | IDLE
  | GRAB_WAIT
  | SLEEP
  deriving DecidableEq, Repr

/-- A `WorkerJob` as built by `_handleJobAssignment`: handle, function
name, arguments, optional unique key and the originating connection. -/
structure WJob where
  handle : Bytes
  name : Bytes
  arguments : Bytes
  unique : Option Bytes
  connId : Nat
  deriving DecidableEq, Repr

/-- The worker-side state the sleep/grab machine touches: the active
connections with their state labels, the shared `waiting_for_jobs`
counter (a Python int, so decrements freely), the shared job queue, and
a log of the packets sent (connection id, packet type). -/
structure WorkerState where
  conns : List (Nat × ConnState)
  waiting : Int
  queue : List WJob
  sent : List (Nat × Nat)
  deriving DecidableEq, Repr

/-- The state label of connection `cid`. -/
def connStateOf (st : WorkerState) (cid : Nat) : Option ConnState :=
  (st.conns.find? (fun c => c.1 == cid)).map (fun c => c.2)

/-- Translation of `connection.changeState(s)` for connection `cid`. -/
def setConnState (st : WorkerState) (cid : Nat) (s : ConnState) : WorkerState :=
  { st with conns := st.conns.map (fun c => if c.1 = cid then (c.1, s) else c) }

/-- One iteration of the loop body of `Worker._updateStateMachines`
(lines 1830-1838) on one connection: `IDLE` with waiters sends
GRAB_JOB_UNIQ and moves to `GRAB_WAIT`; a non-`IDLE` connection with no
waiters returns to `IDLE`. -/
def updConn (waiting : Int) (c : Nat × ConnState) : (Nat × ConnState) × List (Nat × Nat) :=
  if c.2 = ConnState.IDLE ∧ 0 < waiting then
    ((c.1, ConnState.GRAB_WAIT), [(c.1, constants.GRAB_JOB_UNIQ)])
  else if c.2 ≠ ConnState.IDLE ∧ waiting < 1 then ((c.1, ConnState.IDLE), [])
  else (c, [])

/-- Translation of `Worker._updateStateMachines`: run `updConn` over a snapshot of the
active connections, recording the sends. -/
def updateStateMachines (st : WorkerState) : WorkerState :=
  { st with
    conns := st.conns.map (fun c => (updConn st.waiting c).1),
    sent := st.sent ++ (st.conns.map (fun c => (updConn st.waiting c).2)).flatten }

/-- Translation of `Worker.handleNoJob` (lines 1957-1974): on `GRAB_WAIT`, send
PRE_SLEEP on the same connection and move it to `SLEEP`; otherwise the
packet is logged as unexpected and nothing changes. -/
def handleNoJob (st : WorkerState) (cid : Nat) : WorkerState :=
  if connStateOf st cid = some ConnState.GRAB_WAIT then
    { setConnState st cid ConnState.SLEEP with
        sent := st.sent ++ [(cid, constants.PRE_SLEEP)] }
  else st

/-- Translation of `Worker.handleNoop` (lines 1933-1955): on `SLEEP`, send
GRAB_JOB_UNIQ on the same connection and move it to `GRAB_WAIT`;
otherwise nothing changes. -/
def handleNoop (st : WorkerState) (cid : Nat) : WorkerState :=
  if connStateOf st cid = some ConnState.SLEEP then
    { setConnState st cid ConnState.GRAB_WAIT with
        sent := st.sent ++ [(cid, constants.GRAB_JOB_UNIQ)] }
  else st

/-- Translation of `Worker._handleJobAssignment` (lines 2009-2023): move the
connection back to `IDLE`, decrement `waiting_for_jobs`, push the
`WorkerJob` onto the shared queue and re-run the state-machine
update. -/
def handleJobAssignmentCore (st : WorkerState) (cid : Nat) (job : WJob) : WorkerState :=
  let st1 := setConnState st cid ConnState.IDLE
  let st2 := { st1 with waiting := st1.waiting - 1, queue := st1.queue ++ [job] }
  updateStateMachines st2

/-- Translation of `Worker.handleJobAssign` (lines 1976-1989): handle, name and
rest-of-payload arguments from the packet. -/
def handleJobAssign (st : WorkerState) (cid : Nat) (pdata : Bytes) : Option WorkerState := do
  let handle ← getArg pdata 0
  let name ← getArg pdata 1
  let arguments := getArgLast pdata 2
  some (handleJobAssignmentCore st cid ⟨handle, name, arguments, none, cid⟩)

/-- Translation of `Worker.handleJobAssignUnique` (lines 1991-2007): as
`handleJobAssign` but with the unique key as third field (`None` when
empty) and the arguments from field 3 on. -/
def handleJobAssignUniq (st : WorkerState) (cid : Nat) (pdata : Bytes) : Option WorkerState := do
  let handle ← getArg pdata 0
  let name ← getArg pdata 1
  let uniqueRaw ← getArg pdata 2
  let unique := if uniqueRaw = [] then none else some uniqueRaw
  let arguments := getArgLast pdata 3
  some (handleJobAssignmentCore st cid ⟨handle, name, arguments, unique, cid⟩)

/-- The connection-pool state: active and inactive connection lists
(connections named by id). -/
structure PoolState where
  active : List Nat
  inactive : List Nat
  deriving DecidableEq, Repr

/-- Translation of `BaseClientServer._lostConnection` (lines 794-809) restricted to the
two lists: remove the connection from the active list and append it to
the inactive list when not already there. -/
def lostConnection (st : PoolState) (cid : Nat) : PoolState :=
  let a := if cid ∈ st.active then st.active.erase cid else st.active
  let i := if cid ∈ st.inactive then st.inactive else st.inactive ++ [cid]
  ⟨a, i⟩

/-- The per-task wait step of `Client.setOption` (lines 1372-1383):
when the task's wait times out the connection is marked lost and the
loop continues; when it completed without the option in the
connection's set, success drops to false. -/
def setOptionWaitStep (st : PoolState) (cid : Nat) (completed acked success : Bool) :
    PoolState × Bool :=
  if !completed then (lostConnection st cid, success)
  else if !acked then (st, false)
  else (st, success)

/-- Outcome of one attempt of the `Client.submitJob` send loop. -/
inductive SubmitOutcome where
  | retry
  | accepted
  deriving DecidableEq, Repr

/-- One iteration of the `Client.submitJob` loop (lines 1437-1455) for a
chosen connection: a send failure or a timed-out wait marks the
connection lost and retries; a completed wait without a handle retries
without marking; otherwise the job is accepted. -/
def submitJobAttempt (st : PoolState) (cid : Nat) (sendOk completed handleSet : Bool) :
    PoolState × SubmitOutcome :=
  if !sendOk then (lostConnection st cid, .retry)
  else if !completed then (lostConnection st cid, .retry)
  else if !handleSet then (st, .retry)
  else (st, .accepted)

/-- Translation of `Connection.sendAdminRequest` (lines 340-353) after its wait: raise
`TimeoutError` when the response never arrived.  The method is on
`Connection` and never touches the pool, so the pool state passes
through unchanged. -/
def sendAdminRequestResult (st : PoolState) (completed : Bool) :
    PoolState × Except GearErr Unit :=
  (st, if completed then .ok () else .error .timeoutError)

/-- Translation of `Connection.echo` after its wait (lines 386-388): only the echo
registry is consulted; the pool state passes through unchanged. -/
def echoWaitResult (st : PoolState) (es : EchoState) (data : Bytes) :
    PoolState × Except GearErr Bytes :=
  (st, echoFinish es data)

/-- The state `BaseClient.getConnection` reads: the active list and the
round-robin cursor `connection_index` (initially `-1`, hence an
integer). -/
structure RRState where
  active : List Nat
  index : Int
  deriving DecidableEq, Repr

/-- Translation of `BaseClient.getConnection` (lines 1213-1240): raise
`NoConnectedServersError` on an empty active list; otherwise increment
the cursor, reset it to 0 when it reaches or passes the list length,
and return the connection at the new cursor. -/
def getConnection (s : RRState) : Except GearErr (Nat × RRState) :=
  if s.active.isEmpty then .error .noConnectedServers
  else
    let i : Int := if (s.active.length : Int) ≤ s.index + 1 then 0 else s.index + 1
    .ok (s.active.getD i.toNat 0, { s with index := i })

/-- Translation of `k` consecutive `getConnection` calls, collecting the returned
connections; stops early only if a call fails. -/
def runRR (s : RRState) : Nat → List Nat
  | 0 => []
  | k + 1 =>
    match getConnection s with
    | .error _ => []
    | .ok (c, s') => c :: runRR s' k

/-- The cursor value `getConnection` moves to from cursor `i` with `n`
active connections. -/
def nextIdx (n : Nat) (i : Int) : Nat :=
  if (n : Int) ≤ i + 1 then 0 else (i + 1).toNat

/-- Python truthiness of an optional byte string: `None` and `b""` are
falsy. -/
def pyTruthy : Option Bytes → Bool
  | none => false
  | some s => !s.isEmpty

/-- The guard of `Worker.__init__` (lines 1691-1695):
`if not client_id or worker_id: raise Exception(...)`, then
`if worker_id: client_id = worker_id`.  Returns the client id the worker
ends up using. -/
def workerInit (client_id worker_id : Option Bytes) : Except GearErr Bytes :=
  if !pyTruthy client_id || pyTruthy worker_id then .error .exceptionError
  else
    let cid := if pyTruthy worker_id then worker_id.getD [] else client_id.getD []
    .ok cid

/-- Python `hay.find(needle)`: the first index at which `needle` occurs
in `hay`, or `-1` when it does not occur. -/
def pyFind (hay needle : Bytes) : Int :=
  match (List.range (hay.length + 1)).find? (fun i => needle.isPrefixOf (hay.drop i)) with
  | some i => (i : Int)
  | none => -1

/-- Whether `needle` occurs somewhere in `hay` (the spec's "the data
contains the terminator"). -/
def containsSub (hay needle : Bytes) : Bool :=
  (List.range (hay.length + 1)).any (fun i => needle.isPrefixOf (hay.drop i))

/-- Translation of `AdminRequest.isComplete` (lines 452-468), for the status / show
jobs / show unique jobs / workers commands: complete when the buffered
data contains `\n.\n` (boundary 3 past the terminator start) or
`\r\n.\r\n` (5 past), or starts with `.\n` or `.\r\n`.  Returns the
completion flag, the remaining bytes and the captured response. -/
def adminIsComplete (data : Bytes) : Bool × Bytes × Option Bytes :=
  let einl := pyFind data [10, 46, 10]
  let eirt := pyFind data [13, 10, 46, 13, 10]
  let x : Int :=
    if einl ≠ -1 then einl + 3
    else if eirt ≠ -1 then eirt + 5
    else if [46, 10].isPrefixOf data then 2
    else if [46, 13, 10].isPrefixOf data then 3
    else -1
  if x ≠ -1 then (true, data.drop x.toNat, some (data.take x.toNat))
  else (false, data, none)

/-- Translation of `CancelJobAdminRequest.isComplete` and
`VersionAdminRequest.isComplete` (lines 526-533 and 547-554): complete
at the first `\n`, the response being the prefix through it. -/
def cancelVersionIsComplete (data : Bytes) : Bool × Bytes × Option Bytes :=
  let e := pyFind data [10]
  if e ≠ -1 then (true, data.drop (e + 1).toNat, some (data.take (e + 1).toNat))
  else (false, data, none)

/-- The 2x3 (background, precedence) matrix exactly as the spec states
it: background false maps NORMAL/LOW/HIGH to
SUBMIT_JOB/SUBMIT_JOB_LOW/SUBMIT_JOB_HIGH, background true maps them to
the `_BG` variants; anything else is invalid. -/
def specSubmitMatrix (background : Bool) (precedence : Nat) : Option Nat :=
  match background, precedence with
  | false, 0 => some constants.SUBMIT_JOB
  | false, 1 => some constants.SUBMIT_JOB_LOW
  | false, 2 => some constants.SUBMIT_JOB_HIGH
  | true, 0 => some constants.SUBMIT_JOB_BG
  | true, 1 => some constants.SUBMIT_JOB_LOW_BG
  | true, 2 => some constants.SUBMIT_JOB_HIGH_BG
  | _, _ => none

theorem be32_length (n : Nat) : (be32 n).length = 4 := rfl

theorem deBe32_be32 {n : Nat} (h : n < 4294967296) : deBe32 (be32 n) = n := by
  simp only [be32, deBe32]
  omega

theorem pack4s_of_length_four {code : Bytes} (h : code.length = 4) :
    pack4s code = code := by
  simp [pack4s, List.take_of_length_le, Nat.le_of_eq h.symm, h]

/-- What `Packet.toBinary` puts on the wire, split at the header
boundaries. -/
theorem toBinary_decomposed (p : Packet) (rest : Bytes) (h4 : p.code.length = 4) :
    p.toBinary ++ rest =
      p.code ++ (be32 p.ptype ++ (be32 p.data.length ++ (p.data ++ rest))) := by
  simp [Packet.toBinary, pack4s_of_length_four h4, List.append_assoc]

theorem readPacketPure_toBinary (p : Packet) (rest : Bytes) (hp : p.wf) :
    readPacketPure (p.toBinary ++ rest) = some (p, rest) := by
  obtain ⟨h4, h0, ht, hd, -, -⟩ := hp
  rcases hc : p.code with - | ⟨c0, ctl⟩
  · rw [hc] at h4
    simp at h4
  · have hc0 : c0 = 0 := by
      rw [hc] at h0
      simpa using h0
    have hbuf := toBinary_decomposed p rest h4
    have hlen : (p.toBinary ++ rest).length = 12 + p.data.length + rest.length := by
      rw [hbuf]
      simp [h4, be32_length]
      omega
    have hhead : p.toBinary ++ rest = 0 :: (ctl ++ (be32 p.ptype ++ (be32 p.data.length ++ (p.data ++ rest)))) := by
      rw [hbuf, hc, hc0]
      simp
    have hzero : ∀ bs : Bytes, readPacketPure (0 :: bs) = readBinaryFrame (0 :: bs) := by
      intro bs
      simp [readPacketPure]
    rw [hhead, hzero, ← hhead]
    unfold readBinaryFrame
    have h12 : 12 ≤ (p.toBinary ++ rest).length := by omega
    rw [if_pos h12]
    have htake4 : (p.toBinary ++ rest).take 4 = p.code := by
      rw [hbuf]
      exact List.take_left' h4
    have hdrop4 : (p.toBinary ++ rest).drop 4 =
        be32 p.ptype ++ (be32 p.data.length ++ (p.data ++ rest)) := by
      rw [hbuf]
      exact List.drop_left' h4
    have hptype : deBe32 (((p.toBinary ++ rest).drop 4).take 4) = p.ptype := by
      rw [hdrop4, List.take_left' (be32_length _), deBe32_be32 (by omega)]
    have hdrop8 : (p.toBinary ++ rest).drop 8 =
        be32 p.data.length ++ (p.data ++ rest) := by
      rw [hbuf, ← List.append_assoc]
      exact List.drop_left' (by simp [h4, be32_length])
    have hdatalen : deBe32 (((p.toBinary ++ rest).drop 8).take 4) = p.data.length := by
      rw [hdrop8, List.take_left' (be32_length _), deBe32_be32 (by omega)]
    have hdrop12 : (p.toBinary ++ rest).drop 12 = p.data ++ rest := by
      rw [hbuf, ← List.append_assoc, ← List.append_assoc]
      exact List.drop_left' (by simp [h4, be32_length])
    have hpayload : ((p.toBinary ++ rest).drop 12).take p.data.length = p.data := by
      rw [hdrop12]
      exact List.take_left' rfl
    have hrest : (p.toBinary ++ rest).drop (12 + p.data.length) = rest := by
      rw [hbuf, ← List.append_assoc, ← List.append_assoc, ← List.append_assoc]
      exact List.drop_left' (by simp [h4, be32_length]; omega)
    rw [hptype, hdatalen]
    rw [if_pos (by omega)]
    rw [htake4, hpayload, hrest]

theorem readPackets_nil_of_none {buf : Bytes} (h : readPacketPure buf = none) :
    readPackets buf = [] := by
  rw [readPackets]
  split
  · rfl
  · rename_i p rest heq
    rw [h] at heq
    cases heq

theorem readPackets_cons_of_some {buf : Bytes} {p : Packet} {rest : Bytes}
    (h : readPacketPure buf = some (p, rest)) :
    readPackets buf = p :: readPackets rest := by
  rw [readPackets]
  split
  · rename_i heq
    rw [h] at heq
    cases heq
  · rename_i p' rest' heq
    rw [h] at heq
    cases heq
    rfl

/-- Claim C2: for every sequence of packets (any header-valid magic
code, any 32-bit type, any payload bytes including arbitrary NULs),
concatenating the `Packet.toBinary` encodings and decoding the stream
with the framing of `Connection.readPacket` yields the same sequence,
payloads recovered byte for byte. -/
theorem codec_roundtrip (ps : List Packet) (hwf : ∀ p ∈ ps, p.wf) :
    readPackets (encodeAll ps) = ps := by
  induction ps with
  | nil =>
    exact readPackets_nil_of_none rfl
  | cons p ps ih =>
    have hstep : readPacketPure (p.toBinary ++ encodeAll ps) = some (p, encodeAll ps) :=
      readPacketPure_toBinary p (encodeAll ps) (hwf p (by simp))
    have henc : encodeAll (p :: ps) = p.toBinary ++ encodeAll ps := by
      simp [encodeAll]
    rw [henc, readPackets_cons_of_some hstep, ih (fun q hq => hwf q (by simp [hq]))]

/-- Witness for the C2 theorem: a two-packet sequence (an ECHO_REQ
response carrying `b"a\x00b"`, with an embedded NUL, and an empty-payload
GRAB_JOB_UNIQ request) survives the roundtrip. -/
theorem codec_roundtrip_witness :
    readPackets (encodeAll [⟨RES, 17, [97, 0, 98]⟩, ⟨REQ, 30, []⟩]) =
      [⟨RES, 17, [97, 0, 98]⟩, ⟨REQ, 30, []⟩] :=
  codec_roundtrip _ (by decide)

theorem rjGet_eq_none_of_not_mem {m : RelatedJobs} {k : Bytes}
    (h : k ∉ m.map Prod.fst) : rjGet m k = none := by
  unfold rjGet
  rw [Option.map_eq_none', List.find?_eq_none]
  intro e he
  simp only [beq_iff_eq]
  intro hek
  exact h (by simpa [← hek] using List.mem_map_of_mem Prod.fst he)

theorem rjGet_eraseP_self {m : RelatedJobs} (k : Bytes)
    (hnd : (m.map Prod.fst).Nodup) :
    rjGet (m.eraseP (fun e => e.1 == k)) k = none := by
  induction m with
  | nil => rfl
  | cons e m ih =>
    simp only [List.map_cons, List.nodup_cons] at hnd
    obtain ⟨hnotin, hnd'⟩ := hnd
    by_cases hek : e.1 = k
    · rw [List.eraseP_cons_of_pos (by simpa using hek)]
      exact rjGet_eq_none_of_not_mem (hek ▸ hnotin)
    · rw [List.eraseP_cons_of_neg (by simpa using hek)]
      unfold rjGet
      rw [List.find?_cons_of_neg _ (by simpa using hek)]
      exact ih hnd'

/-- Claim C5: after `handleWorkComplete`, `handleWorkFail` or
`handleWorkException` runs on a job found in the connection's
`related_jobs` under its own handle, the job is complete with its handle
assigned and the handle-to-job entry removed; WORK_COMPLETE sets
`complete` and clears `failure`, WORK_FAIL and WORK_EXCEPTION set both,
so `failure` implies `complete` throughout. -/
theorem work_terminal_handlers_spec (m : RelatedJobs) (pdata : Bytes) (job : Job)
    (hnd : (m.map Prod.fst).Nodup)
    (hfound : rjGet m (getArg0 pdata) = some job)
    (hkey : job.handle = some (getArg0 pdata)) :
    (∃ j mc, handleWorkComplete m pdata = .ok (j, mc) ∧
      j.complete = true ∧ j.failure = false ∧ j.handle = some (getArg0 pdata) ∧
      rjGet mc (getArg0 pdata) = none) ∧
    (∃ j mf, handleWorkFail m pdata = .ok (j, mf) ∧
      j.complete = true ∧ j.failure = true ∧ j.handle = some (getArg0 pdata) ∧
      rjGet mf (getArg0 pdata) = none) ∧
    (∃ j me, handleWorkException m pdata = .ok (j, me) ∧
      j.complete = true ∧ j.failure = true ∧ j.handle = some (getArg0 pdata) ∧
      rjGet me (getArg0 pdata) = none) := by
  have hdel : rjDel m (getArg0 pdata) =
      .ok (m.eraseP (fun e => e.1 == getArg0 pdata)) := by
    unfold rjDel
    rw [if_pos (by rw [hfound]; rfl)]
  have hgone := rjGet_eraseP_self (m := m) (getArg0 pdata) hnd
  refine ⟨?_, ?_, ?_⟩
  · by_cases hde : (getArgLast pdata 1).isEmpty
    · refine ⟨{ job with complete := true, failure := false },
        m.eraseP (fun e => e.1 == getArg0 pdata), ?_, rfl, rfl, by simp [hkey], hgone⟩
      simp [handleWorkComplete, packetGetJob, hfound, bind, Except.bind, hde, hkey,
        rjDelHandle, hdel]
    · refine ⟨{ job with
                  data := job.data ++ [getArgLast pdata 1],
                  complete := true,
                  failure := false },
        m.eraseP (fun e => e.1 == getArg0 pdata), ?_, rfl, rfl, by simp [hkey], hgone⟩
      simp [handleWorkComplete, packetGetJob, hfound, bind, Except.bind, hde, hkey,
        rjDelHandle, hdel]
  · refine ⟨{ job with complete := true, failure := true },
      m.eraseP (fun e => e.1 == getArg0 pdata), ?_, rfl, rfl, by simp [hkey], hgone⟩
    simp [handleWorkFail, packetGetJob, hfound, bind, Except.bind, hkey, rjDelHandle, hdel]
  · refine ⟨{ job with
                exception := some (getArgLast pdata 1),
                complete := true,
                failure := true },
      m.eraseP (fun e => e.1 == getArg0 pdata), ?_, rfl, rfl, by simp [hkey], hgone⟩
    simp [handleWorkException, packetGetJob, hfound, bind, Except.bind, hkey,
      rjDelHandle, hdel]

/-- Witness for the C5 theorem: a one-entry `related_jobs` map holding a
job under handle `b"H"` and a WORK_COMPLETE-style payload
`b"H\x00res"`. -/
theorem work_terminal_handlers_spec_witness :
    (∃ j mc, handleWorkComplete [([72], ⟨some [72], [], none, false, false, false⟩)]
        [72, 0, 114] = .ok (j, mc) ∧
      j.complete = true ∧ j.failure = false ∧ j.handle = some (getArg0 [72, 0, 114]) ∧
      rjGet mc (getArg0 [72, 0, 114]) = none) ∧
    (∃ j mf, handleWorkFail [([72], ⟨some [72], [], none, false, false, false⟩)]
        [72, 0, 114] = .ok (j, mf) ∧
      j.complete = true ∧ j.failure = true ∧ j.handle = some (getArg0 [72, 0, 114]) ∧
      rjGet mf (getArg0 [72, 0, 114]) = none) ∧
    (∃ j me, handleWorkException [([72], ⟨some [72], [], none, false, false, false⟩)]
        [72, 0, 114] = .ok (j, me) ∧
      j.complete = true ∧ j.failure = true ∧ j.handle = some (getArg0 [72, 0, 114]) ∧
      rjGet me (getArg0 [72, 0, 114]) = none) :=
  work_terminal_handlers_spec [([72], ⟨some [72], [], none, false, false, false⟩)]
    [72, 0, 114] ⟨some [72], [], none, false, false, false⟩
    (by decide) (by decide) (by decide)

/-- Claim C10: a WORK_DATA, WORK_WARNING or WORK_COMPLETE packet whose
payload after the handle is empty appends nothing to the job's data
list, while the other effects still occur: WORK_WARNING sets the warning
flag and WORK_COMPLETE marks the job complete and clears `failure`. -/
theorem empty_chunk_not_appended (m : RelatedJobs) (pdata : Bytes) (job : Job)
    (hfound : rjGet m (getArg0 pdata) = some job)
    (hkey : job.handle = some (getArg0 pdata))
    (hempty : getArgLast pdata 1 = []) :
    handleWorkData m pdata = .ok (job, m) ∧
    (∃ j, handleWorkWarning m pdata = .ok (j, m) ∧
      j.data = job.data ∧ j.warning = true) ∧
    (∃ j mc, handleWorkComplete m pdata = .ok (j, mc) ∧
      j.data = job.data ∧ j.complete = true ∧ j.failure = false) := by
  have hdel : rjDel m (getArg0 pdata) =
      .ok (m.eraseP (fun e => e.1 == getArg0 pdata)) := by
    unfold rjDel
    rw [if_pos (by rw [hfound]; rfl)]
  refine ⟨?_, ?_, ?_⟩
  · simp [handleWorkData, packetGetJob, hfound, bind, Except.bind, hempty]
  · refine ⟨{ job with warning := true }, ?_, rfl, rfl⟩
    simp [handleWorkWarning, packetGetJob, hfound, bind, Except.bind, hempty]
  · refine ⟨{ job with complete := true, failure := false },
      m.eraseP (fun e => e.1 == getArg0 pdata), ?_, rfl, rfl, rfl⟩
    simp [handleWorkComplete, packetGetJob, hfound, bind, Except.bind, hempty, hkey,
      rjDelHandle, hdel]

/-- Witness for the C10 theorem: the payload `b"H"` names the handle and
carries no data after it. -/
theorem empty_chunk_not_appended_witness :
    handleWorkData [([72], ⟨some [72], [[1]], none, false, false, false⟩)] [72] =
      .ok (⟨some [72], [[1]], none, false, false, false⟩,
           [([72], ⟨some [72], [[1]], none, false, false, false⟩)]) ∧
    (∃ j, handleWorkWarning [([72], ⟨some [72], [[1]], none, false, false, false⟩)] [72] =
        .ok (j, [([72], ⟨some [72], [[1]], none, false, false, false⟩)]) ∧
      j.data = [[1]] ∧ j.warning = true) ∧
    (∃ j mc, handleWorkComplete [([72], ⟨some [72], [[1]], none, false, false, false⟩)] [72] =
        .ok (j, mc) ∧
      j.data = [[1]] ∧ j.complete = true ∧ j.failure = false) :=
  empty_chunk_not_appended [([72], ⟨some [72], [[1]], none, false, false, false⟩)]
    [72] ⟨some [72], [[1]], none, false, false, false⟩
    (by decide) (by decide) (by decide)

theorem find?_map_setState (l : List (Nat × ConnState)) (cid : Nat) (s : ConnState)
    (h : (l.find? (fun c => c.1 == cid)).isSome) :
    ((l.map (fun c => if c.1 = cid then (c.1, s) else c)).find?
        (fun c => c.1 == cid)).map (fun c => c.2) = some s := by
  induction l with
  | nil => simp at h
  | cons c l ih =>
    by_cases hc : c.1 = cid
    · simp only [List.map_cons, if_pos hc]
      rw [List.find?_cons_of_pos _ (by simpa using hc)]
      rfl
    · simp only [List.map_cons, if_neg hc]
      rw [List.find?_cons_of_neg _ (by simpa using hc)]
      rw [List.find?_cons_of_neg _ (by simpa using hc)] at h
      exact ih h

theorem connStateOf_setConnState (st : WorkerState) (cid : Nat) (s : ConnState)
    (h : (connStateOf st cid).isSome) :
    connStateOf (setConnState st cid s) cid = some s := by
  unfold connStateOf at h
  rw [Option.isSome_map'] at h
  exact find?_map_setState st.conns cid s h

theorem updateStateMachines_waiting (st : WorkerState) :
    (updateStateMachines st).waiting = st.waiting := rfl

theorem updateStateMachines_queue (st : WorkerState) :
    (updateStateMachines st).queue = st.queue := rfl

/-- Claim C6: the worker state machine takes exactly the specified
steps.  NO_JOB on a `GRAB_WAIT` connection sends PRE_SLEEP there and
moves it to `SLEEP`; NOOP on a `SLEEP` connection sends GRAB_JOB_UNIQ
and moves it to `GRAB_WAIT`; JOB_ASSIGN / JOB_ASSIGN_UNIQ decrement
`waiting_for_jobs` by one, push a `WorkerJob` built from the packet onto
the shared queue, return the connection to `IDLE` and re-run the
state-machine update (the result being exactly `updateStateMachines` of
that intermediate state). -/
theorem worker_state_machine_steps
    (stA : WorkerState) (cidA : Nat)
    (stB : WorkerState) (cidB : Nat)
    (stC : WorkerState) (cidC : Nat) (pdata : Bytes)
    (hA : connStateOf stA cidA = some ConnState.GRAB_WAIT)
    (hB : connStateOf stB cidB = some ConnState.SLEEP)
    (hC : (connStateOf stC cidC).isSome)
    (hparts : 3 ≤ (pySplit pdata).length) :
    (connStateOf (handleNoJob stA cidA) cidA = some ConnState.SLEEP ∧
      (handleNoJob stA cidA).sent = stA.sent ++ [(cidA, constants.PRE_SLEEP)] ∧
      (handleNoJob stA cidA).waiting = stA.waiting ∧
      (handleNoJob stA cidA).queue = stA.queue) ∧
    (connStateOf (handleNoop stB cidB) cidB = some ConnState.GRAB_WAIT ∧
      (handleNoop stB cidB).sent = stB.sent ++ [(cidB, constants.GRAB_JOB_UNIQ)] ∧
      (handleNoop stB cidB).waiting = stB.waiting ∧
      (handleNoop stB cidB).queue = stB.queue) ∧
    (∃ h n u : Bytes, getArg pdata 0 = some h ∧ getArg pdata 1 = some n ∧
      getArg pdata 2 = some u ∧
      (∀ st', handleJobAssign stC cidC pdata = some st' →
        st' = updateStateMachines
            { setConnState stC cidC ConnState.IDLE with
                waiting := stC.waiting - 1,
                queue := stC.queue ++ [⟨h, n, getArgLast pdata 2, none, cidC⟩] } ∧
          st'.waiting = stC.waiting - 1 ∧
          st'.queue = stC.queue ++ [⟨h, n, getArgLast pdata 2, none, cidC⟩]) ∧
      (∀ st', handleJobAssignUniq stC cidC pdata = some st' →
        st' = updateStateMachines
            { setConnState stC cidC ConnState.IDLE with
                waiting := stC.waiting - 1,
                queue := stC.queue ++
                  [⟨h, n, getArgLast pdata 3, if u = [] then none else some u, cidC⟩] } ∧
          st'.waiting = stC.waiting - 1 ∧
          st'.queue = stC.queue ++
            [⟨h, n, getArgLast pdata 3, if u = [] then none else some u, cidC⟩]) ∧
      (handleJobAssign stC cidC pdata).isSome ∧
      (handleJobAssignUniq stC cidC pdata).isSome ∧
      connStateOf (setConnState stC cidC ConnState.IDLE) cidC = some ConnState.IDLE) := by
  have hAs : (connStateOf stA cidA).isSome := by rw [hA]; rfl
  have hBs : (connStateOf stB cidB).isSome := by rw [hB]; rfl
  have h0 : getArg pdata 0 = some ((pySplit pdata).get ⟨0, by omega⟩) :=
    List.get?_eq_get (by omega)
  have h1 : getArg pdata 1 = some ((pySplit pdata).get ⟨1, by omega⟩) :=
    List.get?_eq_get (by omega)
  have h2 : getArg pdata 2 = some ((pySplit pdata).get ⟨2, by omega⟩) :=
    List.get?_eq_get (by omega)
  refine ⟨?_, ?_, ?_⟩
  · rw [handleNoJob, if_pos hA]
    exact ⟨connStateOf_setConnState stA cidA _ hAs, rfl, rfl, rfl⟩
  · rw [handleNoop, if_pos hB]
    exact ⟨connStateOf_setConnState stB cidB _ hBs, rfl, rfl, rfl⟩
  · refine ⟨_, _, _, h0, h1, h2, ?_, ?_, ?_, ?_, connStateOf_setConnState stC cidC _ hC⟩
    · intro st' hst'
      rw [handleJobAssign, h0, h1] at hst'
      simp only [Option.bind_eq_bind, Option.some_bind, Option.some.injEq] at hst'
      subst hst'
      exact ⟨rfl, rfl, rfl⟩
    · intro st' hst'
      rw [handleJobAssignUniq, h0, h1, h2] at hst'
      simp only [Option.bind_eq_bind, Option.some_bind, Option.some.injEq] at hst'
      subst hst'
      exact ⟨rfl, rfl, rfl⟩
    · rw [handleJobAssign, h0, h1]
      rfl
    · rw [handleJobAssignUniq, h0, h1, h2]
      rfl

/-- Witness for the C6 theorem: three one-connection worker states in
`GRAB_WAIT`, `SLEEP` and `GRAB_WAIT`, the last receiving a
JOB_ASSIGN_UNIQ payload `b"H\x00f\x00u\x00x"`. -/
theorem worker_state_machine_steps_witness :
    connStateOf (handleNoJob ⟨[(1, ConnState.GRAB_WAIT)], 0, [], []⟩ 1) 1 =
      some ConnState.SLEEP ∧
    connStateOf (handleNoop ⟨[(2, ConnState.SLEEP)], 1, [], []⟩ 2) 2 =
      some ConnState.GRAB_WAIT ∧
    (handleJobAssignUniq ⟨[(3, ConnState.GRAB_WAIT)], 1, [], []⟩ 3
        [72, 0, 102, 0, 117, 0, 120]).isSome := by
  have h := worker_state_machine_steps
    ⟨[(1, ConnState.GRAB_WAIT)], 0, [], []⟩ 1
    ⟨[(2, ConnState.SLEEP)], 1, [], []⟩ 2
    ⟨[(3, ConnState.GRAB_WAIT)], 1, [], []⟩ 3 [72, 0, 102, 0, 117, 0, 120]
    (by decide) (by decide) (by decide) (by decide)
  obtain ⟨⟨ha, -⟩, ⟨hb, -⟩, -, -, -, -, -, -, -, -, huniq, -⟩ := h
  exact ⟨ha, hb, huniq⟩

theorem lostConnection_not_active (st : PoolState) (cid : Nat)
    (hnd : st.active.Nodup) : cid ∉ (lostConnection st cid).active := by
  unfold lostConnection
  by_cases hin : cid ∈ st.active
  · simp only [if_pos hin]
    intro hmem
    exact ((hnd.mem_erase_iff).mp hmem).1 rfl
  · simpa [if_neg hin] using hin

theorem lostConnection_mem_inactive (st : PoolState) (cid : Nat) :
    cid ∈ (lostConnection st cid).inactive := by
  unfold lostConnection
  by_cases hi : cid ∈ st.inactive <;> simp [hi]

/-- Claim C7 counterexample: with one active connection, a timed-out
`sendAdminRequest` raises `TimeoutError` but leaves the connection in
the active list, and a timed-out `echo` likewise leaves the pool
untouched — contradicting the claim that every blocking correlated
operation marks the owning connection lost on timeout. -/
theorem admin_echo_timeout_leaves_pool :
    (sendAdminRequestResult ⟨[1], []⟩ false).2 = .error .timeoutError ∧
    1 ∈ ((sendAdminRequestResult ⟨[1], []⟩ false).1).active ∧
    ((sendAdminRequestResult ⟨[1], []⟩ false).1).inactive = [] ∧
    1 ∈ ((echoWaitResult ⟨[1], []⟩ ⟨[[112]], []⟩ [112]).1).active := by
  refine ⟨rfl, ?_, rfl, ?_⟩ <;> decide

/-- Claim C7 (amended): a timed-out `setOption` task wait and a
timed-out `submitJob` attempt mark the owning connection lost —
removed from the active list, appended to the inactive list — while
`sendAdminRequest` and `echo`, which run on the `Connection` object
without pool access, surface their result without touching the pool. -/
theorem correlated_timeout_marks_lost (st : PoolState) (cid : Nat)
    (hnd : st.active.Nodup) (acked success sendOk handleSet : Bool) :
    (cid ∉ ((setOptionWaitStep st cid false acked success).1).active ∧
      cid ∈ ((setOptionWaitStep st cid false acked success).1).inactive) ∧
    (cid ∉ ((submitJobAttempt st cid sendOk false handleSet).1).active ∧
      cid ∈ ((submitJobAttempt st cid sendOk false handleSet).1).inactive) ∧
    (∀ completed, (sendAdminRequestResult st completed).1 = st) ∧
    (∀ es data, (echoWaitResult st es data).1 = st) := by
  have hsub : (submitJobAttempt st cid sendOk false handleSet).1 = lostConnection st cid := by
    cases sendOk <;> simp [submitJobAttempt]
  refine ⟨⟨?_, ?_⟩, ⟨?_, ?_⟩, fun _ => rfl, fun _ _ => rfl⟩
  · simpa [setOptionWaitStep] using lostConnection_not_active st cid hnd
  · simpa [setOptionWaitStep] using lostConnection_mem_inactive st cid
  · simpa [hsub] using lostConnection_not_active st cid hnd
  · simpa [hsub] using lostConnection_mem_inactive st cid

/-- Witness for the amended C7 theorem: a pool with active connections
1 and 2; the timed-out operation owns connection 1. -/
theorem correlated_timeout_marks_lost_witness :
    (1 ∉ ((setOptionWaitStep ⟨[1, 2], []⟩ 1 false true true).1).active ∧
      1 ∈ ((setOptionWaitStep ⟨[1, 2], []⟩ 1 false true true).1).inactive) ∧
    (1 ∉ ((submitJobAttempt ⟨[1, 2], []⟩ 1 true false false).1).active ∧
      1 ∈ ((submitJobAttempt ⟨[1, 2], []⟩ 1 true false false).1).inactive) ∧
    (∀ completed, (sendAdminRequestResult ⟨[1, 2], []⟩ completed).1 = ⟨[1, 2], []⟩) ∧
    (∀ es data, (echoWaitResult ⟨[1, 2], []⟩ es data).1 = ⟨[1, 2], []⟩) :=
  correlated_timeout_marks_lost ⟨[1, 2], []⟩ 1 (by decide) true true true false

theorem pyFind_eq_neg_one_iff (hay needle : Bytes) :
    pyFind hay needle = -1 ↔ containsSub hay needle = false := by
  unfold pyFind containsSub
  rcases h : (List.range (hay.length + 1)).find? (fun i => needle.isPrefixOf (hay.drop i)) with
    - | i
  · simp only [h]
    rw [List.find?_eq_none] at h
    simp only [List.any_eq_false]
    exact ⟨fun _ x hx => by simpa using h x hx, fun _ => trivial⟩
  · simp only [h]
    have hp := List.find?_some h
    have hmem := List.mem_of_find?_eq_some h
    constructor
    · intro heq
      omega
    · intro hfalse
      rw [List.any_eq_false] at hfalse
      exact absurd hp (by simpa using hfalse i hmem)

theorem pyFind_ne_exists {hay needle : Bytes} (h : pyFind hay needle ≠ -1) :
    ∃ i : Nat, pyFind hay needle = (i : Int) := by
  unfold pyFind at *
  rcases hfind : (List.range (hay.length + 1)).find? (fun i => needle.isPrefixOf (hay.drop i))
    with - | i
  · rw [hfind] at h
    exact absurd rfl h
  · exact ⟨i, rfl⟩

/-- Claim C1: the claim says `echo` returns the payload when an ECHO_RES
arrives before the timeout and fails with a timeout error (leaving the
registry clean) otherwise; the code's final check (lines 386-388) is
inverted, so on a fresh connection an unanswered `echo(b"ping")` returns
`b"ping"` as a success and leaves `b"ping"` registered, while an
answered echo raises `TimeoutError`.  This theorem evaluates both runs
of the translated code at that input. -/
theorem echo_result_check_inverted :
    echoTimedOutRun ⟨[], []⟩ [112, 105, 110, 103] =
      .ok ([112, 105, 110, 103], ⟨[[112, 105, 110, 103]], []⟩) ∧
    echoAnsweredRun ⟨[], []⟩ [112, 105, 110, 103] =
      .ok (.error .timeoutError, ⟨[], [[112, 105, 110, 103]]⟩) := by
  constructor <;> rfl

/-- The duplicate-waiter guard of `Connection.echo`: registration fails
with `InvalidDataError` exactly when a waiter for the same payload is
already registered. -/
theorem echoRegister_duplicate_guard (st : EchoState) (data : Bytes) :
    echoRegister st data = .error .invalidData ↔ data ∈ st.registry := by
  unfold echoRegister
  split <;> simp_all

/-- Claim C3: for every job, background flag and precedence,
`Client.submitJob` builds the payload `name‖NUL‖unique‖NUL‖arguments`
(empty bytes for a `None` unique) and picks the packet type from the 2x3
(background, precedence) matrix, failing with a configuration error
before anything is sent for any precedence outside {NORMAL, LOW, HIGH}. -/
theorem submitJob_packet_matrix (name : Bytes) (unique : Option Bytes)
    (arguments : Bytes) (background : Bool) (precedence : Nat) :
    submitJobPacket name unique arguments background precedence =
      match specSubmitMatrix background precedence with
      | some t => .ok ⟨REQ, t, name ++ [0] ++ unique.getD [] ++ [0] ++ arguments⟩
      | none => .error .configurationError := by
  cases background <;>
    rcases precedence with _ | _ | _ | n <;>
      simp [submitJobPacket, specSubmitMatrix, submitJobData,
        PRECEDENCE_NORMAL, PRECEDENCE_LOW, PRECEDENCE_HIGH]

/-- Claim C8: an admin response to status / show jobs / show unique
jobs / workers is complete exactly when the buffered data contains
`\n.\n` (the response ending 3 bytes past the terminator's start) or
`\r\n.\r\n` (5 past), or starts with `.\n` (boundary 2) or `.\r\n`
(boundary 3); a cancel-job or version response is complete exactly at
the first `\n`, the response being the prefix through the terminator
with the remainder returned for further framing. -/
theorem adminIsComplete_terminator_rules (data : Bytes) :
    ((adminIsComplete data).1 = true ↔
      (containsSub data [10, 46, 10] = true ∨ containsSub data [13, 10, 46, 13, 10] = true ∨
        [46, 10].isPrefixOf data = true ∨ [46, 13, 10].isPrefixOf data = true)) ∧
    (∀ i : Nat, pyFind data [10, 46, 10] = (i : Int) →
      adminIsComplete data = (true, data.drop (i + 3), some (data.take (i + 3)))) ∧
    (containsSub data [10, 46, 10] = false →
      ∀ i : Nat, pyFind data [13, 10, 46, 13, 10] = (i : Int) →
        adminIsComplete data = (true, data.drop (i + 5), some (data.take (i + 5)))) ∧
    (containsSub data [10, 46, 10] = false → containsSub data [13, 10, 46, 13, 10] = false →
      [46, 10].isPrefixOf data = true →
      adminIsComplete data = (true, data.drop 2, some (data.take 2))) ∧
    (containsSub data [10, 46, 10] = false → containsSub data [13, 10, 46, 13, 10] = false →
      [46, 10].isPrefixOf data = false → [46, 13, 10].isPrefixOf data = true →
      adminIsComplete data = (true, data.drop 3, some (data.take 3))) ∧
    ((cancelVersionIsComplete data).1 = true ↔ containsSub data [10] = true) ∧
    (∀ i : Nat, pyFind data [10] = (i : Int) →
      cancelVersionIsComplete data = (true, data.drop (i + 1), some (data.take (i + 1)))) ∧
    (containsSub data [10] = false → cancelVersionIsComplete data = (false, data, none)) := by
  have hnl := pyFind_eq_neg_one_iff data [10, 46, 10]
  have hrt := pyFind_eq_neg_one_iff data [13, 10, 46, 13, 10]
  have hn := pyFind_eq_neg_one_iff data [10]
  refine ⟨?_, ?_, ?_, ?_, ?_, ?_, ?_, ?_⟩
  · by_cases c1 : pyFind data [10, 46, 10] = -1
    · by_cases c2 : pyFind data [13, 10, 46, 13, 10] = -1
      · by_cases c3 : [46, 10].isPrefixOf data
        · simp [adminIsComplete, c1, c2, c3, hnl.mp c1, hrt.mp c2]
        · by_cases c4 : [46, 13, 10].isPrefixOf data
          · simp [adminIsComplete, c1, c2, c3, c4, hnl.mp c1, hrt.mp c2]
          · simp [adminIsComplete, c1, c2, c3, c4, hnl.mp c1, hrt.mp c2]
      · obtain ⟨i, hi⟩ := pyFind_ne_exists c2
        have hi' : pyFind data [13, 10, 46, 13, 10] ≠ -1 := by rw [hi]; omega
        have hne : ((i : Int) + 5) ≠ -1 := by omega
        have hcont : containsSub data [13, 10, 46, 13, 10] = true := by
          rcases h : containsSub data [13, 10, 46, 13, 10] with - | -
          · exact absurd (hrt.mpr h) c2
          · rfl
        simp [adminIsComplete, c1, hi, hne, hcont]
    · obtain ⟨i, hi⟩ := pyFind_ne_exists c1
      have hne : ((i : Int) + 3) ≠ -1 := by omega
      have hcont : containsSub data [10, 46, 10] = true := by
        rcases h : containsSub data [10, 46, 10] with - | -
        · exact absurd (hnl.mpr h) c1
        · rfl
      simp [adminIsComplete, hi, hne, hcont]
  · intro i hi
    have hne : ((i : Int) + 3) ≠ -1 := by omega
    have ht : ((i : Int) + 3).toNat = i + 3 := by omega
    simp [adminIsComplete, hi, hne, ht]
  · intro h1 i hi
    have c1 : pyFind data [10, 46, 10] = -1 := hnl.mpr h1
    have hne : ((i : Int) + 5) ≠ -1 := by omega
    have ht : ((i : Int) + 5).toNat = i + 5 := by omega
    simp [adminIsComplete, c1, hi, hne, ht]
  · intro h1 h2 h3
    have c1 : pyFind data [10, 46, 10] = -1 := hnl.mpr h1
    have c2 : pyFind data [13, 10, 46, 13, 10] = -1 := hrt.mpr h2
    simp [adminIsComplete, c1, c2, h3]
  · intro h1 h2 h3 h4
    have c1 : pyFind data [10, 46, 10] = -1 := hnl.mpr h1
    have c2 : pyFind data [13, 10, 46, 13, 10] = -1 := hrt.mpr h2
    simp [adminIsComplete, c1, c2, h3, h4]
  · by_cases c : pyFind data [10] = -1
    · simp [cancelVersionIsComplete, c, hn.mp c]
    · obtain ⟨i, hi⟩ := pyFind_ne_exists c
      have hne : ((i : Int) + 1) ≠ -1 := by omega
      have hcont : containsSub data [10] = true := by
        rcases h : containsSub data [10] with - | -
        · exact absurd (hn.mpr h) c
        · rfl
      simp [cancelVersionIsComplete, hi, hne, hcont]
  · intro i hi
    have hne : ((i : Int) + 1) ≠ -1 := by omega
    have ht : ((i : Int) + 1).toNat = i + 1 := by omega
    simp [cancelVersionIsComplete, hi, hne, ht]
  · intro h1
    have c : pyFind data [10] = -1 := hn.mpr h1
    simp [cancelVersionIsComplete, c]

/-- Witness for the C8 theorem at concrete buffers: `b"a\n.\nXY"` is a
complete status response split after the lone dot, and `b"OK\nrest"` is
a complete version response split after the first newline. -/
theorem adminIsComplete_terminator_rules_witness :
    adminIsComplete [97, 10, 46, 10, 88, 89] =
      (true, [88, 89], some [97, 10, 46, 10]) ∧
    cancelVersionIsComplete [79, 75, 10, 114] = (true, [114], some [79, 75, 10]) := by
  constructor
  · exact (adminIsComplete_terminator_rules [97, 10, 46, 10, 88, 89]).2.1 1 (by decide)
  · exact (adminIsComplete_terminator_rules [79, 75, 10, 114]).2.2.2.2.2.2.1 2 (by decide)

/-- Claim C9: the claim (and the constructor's docstring) says
`worker_id` is accepted as a compatibility alias for `client_id`, so
`Worker(worker_id=x)` should succeed with `x` as the client id; the
transposed guard `if not client_id or worker_id` instead raises whenever
`worker_id` is given and only accepts a bare `client_id`. -/
theorem workerInit_guard_transposed :
    workerInit (some [99]) none = .ok [99] ∧
    workerInit none (some [119]) = .error .exceptionError ∧
    workerInit (some [99]) (some [119]) = .error .exceptionError ∧
    workerInit none none = .error .exceptionError := by
  refine ⟨rfl, rfl, rfl, rfl⟩

theorem nextIdx_lt (n : Nat) (i : Int) (hn : 0 < n) : nextIdx n i < n := by
  unfold nextIdx
  by_cases hc : (n : Int) ≤ i + 1
  · simpa [hc] using hn
  · rw [if_neg hc]
    omega

theorem nextIdx_mod (n j : Nat) (hj : j < n) : nextIdx n (j : Int) = (j + 1) % n := by
  unfold nextIdx
  by_cases hc : (n : Int) ≤ (j : Int) + 1
  · have hjn : j + 1 = n := by omega
    rw [if_pos hc, hjn, Nat.mod_self]
  · have hlt : j + 1 < n := by omega
    rw [if_neg hc, Nat.mod_eq_of_lt hlt]
    omega

theorem getConnection_eq (as : List Nat) (idx : Int) (hne : as ≠ [])
    (hidx : -1 ≤ idx) :
    getConnection ⟨as, idx⟩ = .ok (as.getD (nextIdx as.length idx) 0,
      ⟨as, (nextIdx as.length idx : Int)⟩) := by
  have hempty : as.isEmpty = false := by simpa [List.isEmpty_iff] using hne
  unfold getConnection nextIdx
  simp only [hempty, Bool.false_eq_true, if_false]
  by_cases hc : (as.length : Int) ≤ idx + 1
  · simp [hc]
  · have h1 : (0 : Int) ≤ idx + 1 := by omega
    simp [hc, Int.toNat_of_nonneg h1]

theorem getConnection_empty (s : RRState) (h : s.active = []) :
    getConnection s = .error .noConnectedServers := by
  unfold getConnection
  rw [if_pos (by simp [h])]

theorem runRR_succ_ok {s : RRState} {c : Nat} {s' : RRState}
    (h : getConnection s = .ok (c, s')) (k : Nat) :
    runRR s (k + 1) = c :: runRR s' k := by
  rw [runRR, h]

theorem runRR_norm (as : List Nat) (hne : as ≠ []) :
    ∀ k j, j < as.length →
      runRR ⟨as, (j : Int)⟩ k =
        (List.range k).map (fun t => as.getD ((j + 1 + t) % as.length) 0) := by
  intro k
  induction k with
  | zero => intro j hj; rfl
  | succ k ih =>
    intro j hj
    have hn : 0 < as.length := List.length_pos.mpr hne
    have hj1 : (j + 1) % as.length < as.length := Nat.mod_lt _ hn
    rw [runRR_succ_ok (getConnection_eq as (j : Int) hne (by omega)) k,
      nextIdx_mod as.length j hj, ih ((j + 1) % as.length) hj1,
      List.range_succ_eq_map, List.map_cons, List.map_map]
    congr 1
    refine List.map_congr_left ?_
    intro t _
    simp only [Function.comp_apply, Nat.succ_eq_add_one]
    have harg : ((j + 1) % as.length + 1 + t) % as.length =
        (j + 1 + (t + 1)) % as.length := by
      rw [Nat.add_assoc ((j + 1) % as.length) 1 t, Nat.mod_add_mod]
      congr 1
      omega
    rw [harg]

theorem runRR_from_start (as : List Nat) (idx : Int) (hne : as ≠ [])
    (hidx : -1 ≤ idx) :
    ∀ k, runRR ⟨as, idx⟩ k =
      (List.range k).map
        (fun t => as.getD ((nextIdx as.length idx + t) % as.length) 0) := by
  intro k
  have hn : 0 < as.length := List.length_pos.mpr hne
  have hj0 : nextIdx as.length idx < as.length := nextIdx_lt as.length idx hn
  cases k with
  | zero => rfl
  | succ k =>
    rw [runRR_succ_ok (getConnection_eq as idx hne hidx) k,
      runRR_norm as hne k (nextIdx as.length idx) hj0, List.range_succ_eq_map,
      List.map_cons, List.map_map]
    congr 1
    · simp [Nat.mod_eq_of_lt hj0]
    · refine List.map_congr_left ?_
      intro t _
      simp only [Function.comp_apply]
      have harg : nextIdx as.length idx + 1 + t = nextIdx as.length idx + Nat.succ t := by
        omega
      rw [harg]

theorem count_map_eq_countP (f : Nat → Nat) (l : List Nat) (x : Nat) :
    (l.map f).count x = l.countP (fun t => f t == x) := by
  induction l with
  | nil => rfl
  | cons a l ih =>
    rw [List.map_cons, List.count_cons, List.countP_cons, ih]

theorem getD_inj_of_nodup (as : List Nat) (hnd : as.Nodup) {i r : Nat}
    (hi : i < as.length) (hr : r < as.length) :
    as.getD i 0 = as.getD r 0 ↔ i = r := by
  rw [List.getD_eq_getElem as 0 hi, List.getD_eq_getElem as 0 hr]
  exact hnd.getElem_inj_iff

theorem mod_index_shift (n j₀ r : Nat) (hn : 0 < n) (hr : r < n) (t : Nat) :
    (j₀ + t) % n = r ↔ t % n = (r + n - j₀ % n) % n := by
  set s := (r + n - j₀ % n) % n with hsdef
  have hsmall : s < n := Nat.mod_lt _ hn
  have hjlt := Nat.mod_lt j₀ hn
  have harith : j₀ % n + (r + n - j₀ % n) = r + n := by omega
  have hs2 : (j₀ + s) % n = r := by
    rw [hsdef, Nat.add_mod_mod, Nat.add_mod j₀ (r + n - j₀ % n) n, Nat.add_mod_mod,
      harith, Nat.add_mod_right]
    exact Nat.mod_eq_of_lt hr
  constructor
  · intro h
    have heq : (j₀ + t) % n = (j₀ + s) % n := by rw [h, hs2]
    have h2 : t % n = s % n := Nat.ModEq.add_left_cancel' j₀ heq
    rw [h2]
    exact Nat.mod_eq_of_lt hsmall
  · intro h
    have hmod : t % n = s % n := by rw [h, Nat.mod_eq_of_lt hsmall]
    have heq : (j₀ + t) % n = (j₀ + s) % n := Nat.ModEq.add_left j₀ hmod
    rw [heq, hs2]

theorem countP_range_residue (n s k : Nat) (hn : 0 < n) (hs : s < n) :
    (List.range k).countP (fun t => t % n == s) =
      k / n + if s < k % n then 1 else 0 := by
  have h2 : Nat.count (· ≡ s [MOD n]) k = k / n + if s % n < k % n then 1 else 0 :=
    Nat.count_modEq_card k hn s
  rw [Nat.mod_eq_of_lt hs] at h2
  rw [← h2]
  unfold Nat.count
  refine List.countP_congr ?_
  intro t _
  have hiff : (t ≡ s [MOD n]) ↔ t % n = s := by
    unfold Nat.ModEq
    rw [Nat.mod_eq_of_lt hs]
  simp [hiff]

theorem ceil_div_eq (n k : Nat) (hn : 0 < n) (hk : 0 < k % n) :
    (k + n - 1) / n = k / n + 1 := by
  have hsplit : k + n - 1 = k + (n - 1) := by omega
  have hd : (n - 1) / n = 0 := Nat.div_eq_of_lt (by omega)
  have hm : (n - 1) % n = n - 1 := Nat.mod_eq_of_lt (by omega)
  have hcond : n ≤ k % n + (n - 1) := by omega
  rw [hsplit, Nat.add_div hn, hd, hm, if_pos hcond]

theorem runRR_fair (as : List Nat) (idx : Int) (hne : as ≠ []) (hidx : -1 ≤ idx)
    (hnd : as.Nodup) (k r : Nat) (hr : r < as.length) :
    (runRR ⟨as, idx⟩ k).count (as.getD r 0) = k / as.length ∨
    (runRR ⟨as, idx⟩ k).count (as.getD r 0) = (k + as.length - 1) / as.length := by
  have hn : 0 < as.length := List.length_pos.mpr hne
  rw [runRR_from_start as idx hne hidx k, count_map_eq_countP]
  have hc1 : (List.range k).countP
        (fun t => as.getD ((nextIdx as.length idx + t) % as.length) 0 == as.getD r 0) =
      (List.range k).countP
        (fun t => t % as.length =
          (r + as.length - nextIdx as.length idx % as.length) % as.length) := by
    refine List.countP_congr ?_
    intro t _
    have hlt : (nextIdx as.length idx + t) % as.length < as.length := Nat.mod_lt _ hn
    have hinj := getD_inj_of_nodup as hnd hlt hr
    have hshift := mod_index_shift as.length (nextIdx as.length idx) r hn hr t
    simp only [beq_iff_eq, decide_eq_true_eq]
    rw [hinj, hshift]
  rw [hc1]
  have hc2 : (List.range k).countP
        (fun t => t % as.length =
          (r + as.length - nextIdx as.length idx % as.length) % as.length) =
      k / as.length +
        if (r + as.length - nextIdx as.length idx % as.length) % as.length <
            k % as.length then 1 else 0 := by
    have := countP_range_residue as.length
      ((r + as.length - nextIdx as.length idx % as.length) % as.length) k hn
      (Nat.mod_lt _ hn)
    rw [← this]
    refine List.countP_congr ?_
    intro t _
    simp
  rw [hc2]
  by_cases hif : (r + as.length - nextIdx as.length idx % as.length) % as.length <
      k % as.length
  · right
    rw [if_pos hif, ceil_div_eq as.length k hn (by omega)]
  · left
    rw [if_neg hif, Nat.add_zero]

/-- Claim C4: `getConnection` fails with a no-connected-servers error
exactly when the active list is empty; otherwise it advances the cursor
by one, resetting it to 0 when it reaches or passes the length of the
active list, and returns the active connection at the new cursor.
Consequently, over `k` consecutive calls with the active list unchanged,
each connection is returned either `⌊k/n⌋` or `⌈k/n⌉` times (with
`⌈k/n⌉ = (k + n - 1) / n`). -/
theorem getConnection_round_robin (s : RRState) (hidx : -1 ≤ s.index)
    (hnd : s.active.Nodup) :
    (getConnection s = .error .noConnectedServers ↔ s.active = []) ∧
    (s.active ≠ [] →
      ∃ j : Nat, j < s.active.length ∧
        ((j : Int) = if (s.active.length : Int) ≤ s.index + 1 then 0 else s.index + 1) ∧
        getConnection s = .ok (s.active.getD j 0, ⟨s.active, (j : Int)⟩)) ∧
    (∀ k r, r < s.active.length →
      (runRR s k).count (s.active.getD r 0) = k / s.active.length ∨
      (runRR s k).count (s.active.getD r 0) =
        (k + s.active.length - 1) / s.active.length) := by
  rcases s with ⟨as, idx⟩
  simp only at hidx hnd
  refine ⟨?_, ?_, ?_⟩
  · constructor
    · intro h
      by_contra hne
      rw [getConnection_eq as idx hne hidx] at h
      cases h
    · intro h
      exact getConnection_empty _ h
  · intro hne
    have hn : 0 < as.length := List.length_pos.mpr hne
    refine ⟨nextIdx as.length idx, nextIdx_lt as.length idx hn, ?_,
      getConnection_eq as idx hne hidx⟩
    dsimp only
    unfold nextIdx
    by_cases hc : (as.length : Int) ≤ idx + 1
    · simp [hc]
    · rw [if_neg hc, if_neg hc]
      omega
  · intro k r hr
    have hne : as ≠ [] := by
      intro h
      rw [h] at hr
      simp at hr
    exact runRR_fair as idx hne hidx hnd k r hr

/-- Witness for the C4 theorem: two active connections `[5, 7]` and the
initial cursor `-1`; the first call returns connection 5 with the cursor
on 0, and over 3 calls connection 5 is returned `⌈3/2⌉ = 2` times and
connection 7 `⌊3/2⌋ = 1` time. -/
theorem getConnection_round_robin_witness :
    getConnection ⟨[5, 7], -1⟩ = .ok (5, ⟨[5, 7], 0⟩) ∧
    runRR ⟨[5, 7], -1⟩ 3 = [5, 7, 5] ∧
    (runRR ⟨[5, 7], -1⟩ 3).count 5 = (3 + 2 - 1) / 2 ∧
    (runRR ⟨[5, 7], -1⟩ 3).count 7 = 3 / 2 := by
  obtain ⟨-, h2, h3⟩ := getConnection_round_robin ⟨[5, 7], -1⟩ (by decide) (by decide)
  refine ⟨?_, by decide, ?_, ?_⟩
  · obtain ⟨j, hj, hjeq, hget⟩ := h2 (by decide)
    have hj0 : j = 0 := by
      simp only [List.length_cons, List.length_nil] at hjeq
      omega
    rw [hj0] at hget
    simpa using hget
  · rcases h3 3 0 (by decide) with hc | hc
    · exact absurd hc (by decide)
    · simpa using hc
  · rcases h3 3 1 (by decide) with hc | hc
    · simpa using hc
    · exact absurd hc (by decide)

end Gear
